import Mathlib

/-
Verification development for the process-aware SOCKS5 proxy gateway
(socksify). The repository ships two C++/CLI headers
(src/socksify/Socksifier.h and src/socksify/socksify_unmanaged.h) that
declare the administrative surface, the enumerations and the documented
contracts of the routing and policy engine; the method bodies live
outside the shipped sources. Enumerations, reserved LAN ranges and
documented return-value contracts below are taken from the headers;
behavioural definitions are modelled from the specification, as noted
on each definition.
-/

namespace Socksify

/-- Log levels from Socksifier.h. The numeric values are the bitmask
values of the source enumeration: Error = 0, Warning = 1, Info = 2,
Debug = 4, All = 255. -/
inductive LogLevel where
  | Error
  | Warning
  | Info
  | Debug
  | All
deriving DecidableEq, Repr

/-- Numeric value of each log level, exactly as declared in
Socksifier.h. -/
def logLevelVal : LogLevel → Nat
  | .Error => 0
  | .Warning => 1
  | .Info => 2
  | .Debug => 4
  | .All => 255

/-- Ordinal severity rank of a level under the order
Error < Warning < Info < Debug (with All above everything). -/
def sevRank : LogLevel → Nat
  | .Error => 0
  | .Warning => 1
  | .Info => 2
  | .Debug => 3
  | .All => 4

/-- Gateway event kinds from Socksifier.h. -/
inductive ProxyGatewayEvent where
  | Connected
  | Disconnected
  | Message
  | AddressError
  | NdisError
deriving DecidableEq, Repr

/-- Supported-protocol mask from Socksifier.h. -/
inductive SupportedProtocolsEnum where
  | TCP
  | UDP
  | BOTH
deriving DecidableEq, Repr

/-- Protocol of a single intercepted connection. -/
inductive Protocol where
  | TCP
  | UDP
deriving DecidableEq, Repr

/-- Whether a proxy whose mask is the first argument accepts a
connection of the given protocol. -/
def supportsProtocol : SupportedProtocolsEnum → Protocol → Bool
  | .TCP, .TCP => true
  | .UDP, .UDP => true
  | .BOTH, _ => true
  | _, _ => false

/-- Routing verdict of the decision engine. -/
inductive Decision where
  | Bypass
  | Proxy (handle : Nat)
  | Block
deriving DecidableEq, Repr

/-- An IPv4 CIDR range: a 32-bit base address and a mask length. -/
structure Cidr where
  base : Nat
  bits : Nat
deriving DecidableEq, Repr

/-- Whether the 32-bit address addr falls inside the CIDR range c. -/
def cidrMatch (c : Cidr) (addr : Nat) : Bool :=
  addr / 2 ^ (32 - c.bits) == c.base / 2 ^ (32 - c.bits)

/-- The 32-bit value of the dotted-decimal address a.b.c.d. -/
def mkIp (a b c d : Nat) : Nat :=
  ((a * 256 + b) * 256 + c) * 256 + d

/-- The five reserved LAN ranges listed in Socksifier.h for the LAN
bypass: 10.0.0.0/8, 172.16.0.0/12, 192.168.0.0/16, 224.0.0.0/4 and
169.254.0.0/16. -/
def lanRanges : List Cidr :=
  [⟨mkIp 10 0 0 0, 8⟩, ⟨mkIp 172 16 0 0, 12⟩, ⟨mkIp 192 168 0 0, 16⟩,
   ⟨mkIp 224 0 0 0, 4⟩, ⟨mkIp 169 254 0 0, 16⟩]

/-- Whether a destination address falls in one of the reserved LAN
ranges. -/
def inLanRange (addr : Nat) : Bool :=
  lanRanges.any (fun c => cidrMatch c addr)

/-- Splits a character list on a separator character. -/
def splitChar (sep : Char) : List Char → List (List Char)
  | [] => [[]]
  | c :: cs =>
    let r := splitChar sep cs
    if c = sep then [] :: r
    else (c :: r.headD []) :: r.tail

/-- Accumulating decimal parser over characters; fails on any
non-digit character. -/
def parseNatCore : List Char → Nat → Option Nat
  | [], acc => some acc
  | c :: cs, acc =>
    if c.isDigit then parseNatCore cs (acc * 10 + (c.toNat - 48))
    else none

/-- Parses a non-empty all-digit character list as a natural number. -/
def parseNatChars (cs : List Char) : Option Nat :=
  if cs.isEmpty then none else parseNatCore cs 0

/-- Parses a dotted-decimal IPv4 address to its 32-bit value. -/
def parseIPv4 (cs : List Char) : Option Nat :=
  match splitChar '.' cs with
  | [a, b, c, d] =>
    match parseNatChars a, parseNatChars b, parseNatChars c, parseNatChars d with
    | some x, some y, some z, some w =>
      if x < 256 ∧ y < 256 ∧ z < 256 ∧ w < 256 then
        some (mkIp x y z w)
      else none
    | _, _, _, _ => none
  | _ => none

/-- Modelled from the spec: endpoint validation of add_socks5_proxy,
whose body is outside the shipped headers. An endpoint string parses
as host:port with the host in dotted-decimal IPv4 form and the port a
16-bit number. -/
def parseEndpoint (s : String) : Option (Nat × Nat) :=
  match splitChar ':' s.data with
  | [h, p] =>
    match parseIPv4 h, parseNatChars p with
    | some ip, some port => if port < 65536 then some (ip, port) else none
    | _, _ => none
  | _ => none

/-- Modelled from the spec: CIDR validation of the per-process
destination CIDR operations, whose bodies are outside the shipped
headers. A CIDR string is a.b.c.d/len with len at most 32. -/
def parseCidr (s : String) : Option Cidr :=
  match splitChar '/' s.data with
  | [h, p] =>
    match parseIPv4 h, parseNatChars p with
    | some ip, some n => if n ≤ 32 then some ⟨ip, n⟩ else none
    | _, _ => none
  | _ => none

/-- Case-insensitive normal form of a process name, used for Policy
Table lookups. -/
def normName (s : String) : List Char :=
  s.data.map Char.toLower

/-- A registered SOCKS5 upstream proxy. -/
structure Proxy where
  endpoint : Nat × Nat
  login : List Char
  password : List Char
  protocols : SupportedProtocolsEnum
  running : Bool
deriving DecidableEq, Repr

/-- A per-process routing rule of the Policy Table. -/
structure ProcessRule where
  proxyHandle : Option Nat
  excluded : Bool
  includedCidrs : List Cidr
  excludedCidrs : List Cidr
deriving DecidableEq, Repr

/-- The rule created when an operation touches a process name with no
existing rule. -/
def defaultRule : ProcessRule :=
  { proxyHandle := none, excluded := false, includedCidrs := [], excludedCidrs := [] }

/-- Gateway lifecycle states. -/
inductive Lifecycle where
  | Created
  | Started
  | Stopped
deriving DecidableEq, Repr

/-- Modelled from the spec: the gateway state owned by the
socksify_unmanaged singleton, whose implementation is outside the
shipped headers. It holds the lifecycle state, the LAN bypass flag,
the Proxy Registry (handle-keyed association list together with the
next fresh handle) and the Policy Table keyed by normalised process
name. -/
structure GatewayState where
  lifecycle : Lifecycle
  bypassLan : Bool
  nextHandle : Nat
  proxies : List (Nat × Proxy)
  rules : List (List Char × ProcessRule)
deriving DecidableEq, Repr

/-- The state of a freshly constructed gateway. -/
def initState : GatewayState :=
  { lifecycle := .Created, bypassLan := false, nextHandle := 0, proxies := [], rules := [] }

/-- First value bound to a key in an association list of proxies. -/
def findP (h : Nat) : List (Nat × Proxy) → Option Proxy
  | [] => none
  | p :: t => if p.1 = h then some p.2 else findP h t

/-- Registry lookup by handle. -/
def lookupProxy (st : GatewayState) (h : Nat) : Option Proxy :=
  findP h st.proxies

/-- First rule bound to a normalised name in the Policy Table. -/
def assocFind (k : List Char) : List (List Char × ProcessRule) → Option ProcessRule
  | [] => none
  | p :: t => if p.1 = k then some p.2 else assocFind k t

/-- Case-insensitive Policy Table lookup; absence signals default
policy. -/
def lookupRule (st : GatewayState) (name : String) : Option ProcessRule :=
  assocFind (normName name) st.rules

/-- Updates the rule bound to a key, creating it from the default rule
when absent. -/
def upsertRule (k : List Char) (f : ProcessRule → ProcessRule) :
    List (List Char × ProcessRule) → List (List Char × ProcessRule)
  | [] => [(k, f defaultRule)]
  | p :: t => if p.1 = k then (k, f p.2) :: t else p :: upsertRule k f t

/-- Modelled from the spec: set_bypass_lan of socksify_unmanaged,
whose body is outside the shipped headers. Enables the LAN bypass
flag. -/
def setBypassLan (st : GatewayState) : GatewayState :=
  { st with bypassLan := true }

/-- Modelled from the spec: add_socks5_proxy of socksify_unmanaged,
whose body is outside the shipped headers. Validates the endpoint,
allocates a fresh nonzero handle and registers the proxy; on a
malformed endpoint it returns the failure sentinel 0 and leaves the
state unchanged, as documented in the header. -/
def addSocks5Proxy (st : GatewayState) (endpoint : String)
    (protocol : SupportedProtocolsEnum) (start : Bool) (login pw : String) :
    Nat × GatewayState :=
  match parseEndpoint endpoint with
  | none => (0, st)
  | some ep =>
    let h := st.nextHandle + 1
    (h, { st with
          nextHandle := h,
          proxies := st.proxies ++
            [(h, { endpoint := ep, login := login.data, password := pw.data,
                   protocols := protocol, running := start })] })

/-- Modelled from the spec: associate_process_name_to_proxy of
socksify_unmanaged, whose body is outside the shipped headers. Fails
without mutation when the handle is not registered; otherwise creates
or updates the rule, overwriting only the assigned proxy. -/
def associateProcessNameToProxy (st : GatewayState) (name : String) (h : Nat) :
    Bool × GatewayState :=
  match lookupProxy st h with
  | none => (false, st)
  | some _ =>
    (true, { st with
             rules := upsertRule (normName name)
               (fun r => { r with proxyHandle := some h }) st.rules })

/-- Modelled from the spec: exclude_process_name of
socksify_unmanaged, whose body is outside the shipped headers. Sets
the excluded flag of the rule, creating the rule when absent, and
leaves the assigned proxy untouched. -/
def excludeProcessName (st : GatewayState) (name : String) : Bool × GatewayState :=
  (true, { st with
           rules := upsertRule (normName name)
             (fun r => { r with excluded := true }) st.rules })

/-- Modelled from the spec: include_process_dst_cidr of
socksify_unmanaged, whose body is outside the shipped headers. Fails
without mutation on a malformed CIDR; otherwise appends the range to
the included set of the rule, creating the rule when absent. -/
def includeProcessDstCidr (st : GatewayState) (name : String) (cidr : String) :
    Bool × GatewayState :=
  match parseCidr cidr with
  | none => (false, st)
  | some cd =>
    (true, { st with
             rules := upsertRule (normName name)
               (fun r => { r with includedCidrs := r.includedCidrs ++ [cd] }) st.rules })

/-- Modelled from the spec: remove_process_dst_cidr of
socksify_unmanaged, whose body is outside the shipped headers. Fails
without mutation on a malformed CIDR or when the range is not present
in the included set of the rule. -/
def removeProcessDstCidr (st : GatewayState) (name : String) (cidr : String) :
    Bool × GatewayState :=
  match parseCidr cidr with
  | none => (false, st)
  | some cd =>
    match assocFind (normName name) st.rules with
    | none => (false, st)
    | some r =>
      if cd ∈ r.includedCidrs then
        (true, { st with
                 rules := upsertRule (normName name)
                   (fun r => { r with
                     includedCidrs :=
                       r.includedCidrs.filter (fun x => if x = cd then false else true) })
                   st.rules })
      else (false, st)

/-- Marks every registered proxy as stopped. -/
def stopAll (l : List (Nat × Proxy)) : List (Nat × Proxy) :=
  l.map (fun p => (p.1, { p.2 with running := false }))

/-- Modelled from the spec: stop of socksify_unmanaged, whose body is
outside the shipped headers. Tears down all running proxies and moves
the lifecycle to Stopped, returning success; a stop on an already
stopped gateway is a no-op returning success. -/
def stop (st : GatewayState) : Bool × GatewayState :=
  (true, { st with lifecycle := .Stopped, proxies := stopAll st.proxies })

/-- Modelled from the spec: the routing decision engine invoked for
every intercepted connection, whose implementation is outside the
shipped headers. Precedence order: LAN bypass, missing rule, excluded
flag, included-CIDR allow list, excluded-CIDR list, assigned proxy
with registry lookup and protocol-mask check. The destination is an
address and a port. -/
def decide (st : GatewayState) (processName : String) (dest : Nat × Nat)
    (protocol : Protocol) : Decision :=
  if st.bypassLan && inLanRange dest.1 then .Bypass
  else
    match lookupRule st processName with
    | none => .Bypass
    | some r =>
      if r.excluded then .Bypass
      else if !r.includedCidrs.isEmpty &&
              !(r.includedCidrs.any (fun c => cidrMatch c dest.1)) then .Bypass
      else if r.excludedCidrs.any (fun c => cidrMatch c dest.1) then .Bypass
      else
        match r.proxyHandle with
        | none => .Bypass
        | some h =>
          match lookupProxy st h with
          | none => .Block
          | some px =>
            if supportsProtocol px.protocols protocol then .Proxy h
            else .Block

/-- A log entry as declared in Socksifier.h, carrying a timestamp, an
event kind and either a description or a numeric payload. Modelled
from the spec: the severity field records the level at which the
entry was emitted, which the pipeline filters on at append time. -/
structure LogEntry where
  timeStamp : Int
  event : ProxyGatewayEvent
  level : LogLevel
  description : List Char
  data : Nat
deriving DecidableEq, Repr

/-- Modelled from the spec: the bounded log pipeline of the gateway,
whose implementation is outside the shipped headers. It holds the
capacity ceiling, the buffered entries oldest first, and the
configured level. -/
structure LogPipeline where
  limit : Nat
  buf : List LogEntry
  level : LogLevel
deriving DecidableEq, Repr

/-- Whether an entry emitted at severity sev is retained under
configured level cfg: a numeric threshold comparison on the bitmask
values of the source enumeration. -/
def retained (cfg sev : LogLevel) : Bool :=
  logLevelVal sev ≤ logLevelVal cfg

/-- Ring-buffer push: appends the entry and, when the buffer exceeds
the capacity, evicts the oldest entries. -/
def pushRing (limit : Nat) (buf : List LogEntry) (e : LogEntry) : List LogEntry :=
  let b := buf ++ [e]
  if limit < b.length then b.drop (b.length - limit) else b

/-- Modelled from the spec: append of the log pipeline, whose
implementation is outside the shipped headers. Entries below the
configured level are dropped at append time; retained entries enter
the bounded buffer under the ring-buffer discipline. -/
def appendEntry (p : LogPipeline) (e : LogEntry) : LogPipeline :=
  if retained p.level e.level then { p with buf := pushRing p.limit p.buf e }
  else p

/-- Appends a list of entries in order. -/
def appendAll (p : LogPipeline) (es : List LogEntry) : LogPipeline :=
  es.foldl appendEntry p

/-- The buffer contents after appending a list of entries into an
empty pipeline, keeping only the ring-buffer discipline. -/
def ringFold (limit : Nat) (es : List LogEntry) : List LogEntry :=
  es.foldl (pushRing limit) []

/-- Modelled from the spec: read_log of socksify_unmanaged, whose
body is outside the shipped headers. Drains the whole buffer as one
batch; the pipeline retains nothing afterwards. -/
def readLog (p : LogPipeline) : List LogEntry × LogPipeline :=
  (p.buf, { p with buf := [] })

/-- Modelled from the spec: set_log_limit of socksify_unmanaged,
whose body is outside the shipped headers. Shrinking evicts the
oldest entries; growing raises the ceiling. -/
def setLogLimit (p : LogPipeline) (n : Nat) : LogPipeline :=
  { p with limit := n, buf := p.buf.drop (p.buf.length - n) }

/-- Whether every registered handle is nonzero. -/
def handlesPositive (st : GatewayState) : Bool :=
  st.proxies.all (fun p => p.1 != 0)

/-- Looking a key up after an upsert on that key yields the updated
rule, seeded from the default rule when the key was absent. -/
theorem assocFind_upsert (k : List Char) (f : ProcessRule → ProcessRule)
    (l : List (List Char × ProcessRule)) :
    assocFind k (upsertRule k f l) = some (f ((assocFind k l).getD defaultRule)) := by
  induction l with
  | nil => simp [assocFind, upsertRule]
  | cons p t ih =>
    by_cases h : p.1 = k
    · simp [assocFind, upsertRule, h]
    · simp [assocFind, upsertRule, h, ih]

/-- Stopping all proxies is idempotent. -/
theorem stopAll_idem (l : List (Nat × Proxy)) : stopAll (stopAll l) = stopAll l := by
  unfold stopAll
  rw [List.map_map]
  apply List.map_congr_left
  intro a _
  rfl

/-- When every registered handle is nonzero, handle 0 is absent. -/
theorem findP_zero (l : List (Nat × Proxy)) (h : l.all (fun p => p.1 != 0) = true) :
    findP 0 l = none := by
  induction l with
  | nil => rfl
  | cons p t ih =>
    simp only [List.all_cons, Bool.and_eq_true, bne_iff_ne, ne_eq] at h
    simp only [findP, if_neg h.1]
    exact ih h.2

/-- The numeric threshold comparison on bitmask values agrees with the
ordinal severity ranks. -/
theorem retained_iff (cfg sev : LogLevel) :
    retained cfg sev = true ↔ sevRank sev ≤ sevRank cfg := by
  cases cfg <;> cases sev <;> decide

/-- Closed form of the ring-buffer fold: only the most recent entries
up to the capacity survive, in order. -/
theorem ringFold_eq (limit : Nat) (es : List LogEntry) :
    ringFold limit es = es.drop (es.length - limit) := by
  induction es using List.reverseRecOn with
  | nil => simp [ringFold]
  | append_singleton es e ih =>
    have hstep : ringFold limit (es ++ [e]) = pushRing limit (ringFold limit es) e := by
      simp [ringFold]
    rw [hstep, ih]
    unfold pushRing
    rcases Nat.lt_or_ge es.length limit with hlt | hge
    · have h1 : es.length - limit = 0 := by omega
      have hc : ¬ (limit < (es.drop (es.length - limit) ++ [e]).length) := by
        simp [h1]; omega
      rw [if_neg hc, h1]
      have h2 : es.length + 1 - limit = 0 := by omega
      simp [h2]
    · rcases Nat.eq_zero_or_pos limit with h0 | hpos
      · subst h0
        have h1 : es.drop (es.length - 0) = [] := by
          simp
        rw [h1]
        simp
      · have hlen : (es.drop (es.length - limit)).length = limit := by
          simp; omega
        have hc : limit < (es.drop (es.length - limit) ++ [e]).length := by
          simp [hlen]
        rw [if_pos hc]
        have h2 : (es.drop (es.length - limit) ++ [e]).length - limit = 1 := by
          simp [hlen]
        rw [h2]
        rw [List.drop_append_of_le_length (by rw [hlen]; omega)]
        rw [List.drop_drop]
        have h3 : (es ++ [e]).length - limit = (es.length - limit) + 1 := by
          simp; omega
        rw [h3]
        rw [List.drop_append_of_le_length (by omega)]

/-- Appending through the pipeline at level All applies exactly the
ring-buffer discipline and preserves the limit and the level. -/
theorem appendAll_all_level (es : List LogEntry) : ∀ p : LogPipeline,
    p.level = LogLevel.All →
    appendAll p es = ⟨p.limit, es.foldl (pushRing p.limit) p.buf, p.level⟩ := by
  induction es with
  | nil => intro p hp; simp [appendAll]
  | cons e t ih =>
    intro p hp
    have hr : retained p.level e.level = true := by
      rw [hp]; cases e.level <;> rfl
    have hone : appendEntry p e = { p with buf := pushRing p.limit p.buf e } := by
      unfold appendEntry
      rw [if_pos hr]
    rw [appendAll, List.foldl_cons, hone]
    have := ih { p with buf := pushRing p.limit p.buf e } (by simpa using hp)
    rw [appendAll] at this
    rw [this]
    simp

/-- A TCP-only proxy used by the C3 example states. -/
def c3Proxy : Proxy :=
  { endpoint := (mkIp 198 51 100 10, 1080), login := [], password := [],
    protocols := .TCP, running := true }

/-- C3 example state: the rule for app.exe has both the excluded flag
set and an assigned TCP-only proxy. -/
def c3State : GatewayState :=
  { lifecycle := .Started, bypassLan := false, nextHandle := 1,
    proxies := [(1, c3Proxy)],
    rules := [(normName "app.exe",
      { proxyHandle := some 1, excluded := true, includedCidrs := [], excludedCidrs := [] })] }

/-- C3 witness state: like the C3 example state but with the excluded
flag clear, so only the protocol mask decides. -/
def c3bState : GatewayState :=
  { lifecycle := .Started, bypassLan := false, nextHandle := 1,
    proxies := [(1, c3Proxy)],
    rules := [(normName "app.exe",
      { proxyHandle := some 1, excluded := false, includedCidrs := [], excludedCidrs := [] })] }

/-- C2 example state: app.exe is associated to proxy 1 and its rule
is not yet excluded. -/
def c2State : GatewayState :=
  { lifecycle := .Started, bypassLan := false, nextHandle := 1,
    proxies := [(1, c3Proxy)],
    rules := [(normName "app.exe",
      { proxyHandle := some 1, excluded := false, includedCidrs := [], excludedCidrs := [] })] }

/-- A looked-up rule with the excluded flag set forces Bypass. -/
theorem decide_bypass_of_excluded (st : GatewayState) (name : String) (dest : Nat × Nat)
    (protocol : Protocol) (r : ProcessRule)
    (h : lookupRule st name = some r) (hx : r.excluded = true) :
    Socksify.decide st name dest protocol = .Bypass := by
  unfold Socksify.decide
  split
  · rfl
  · rw [h]
    simp [hx]

/-- The exclusion operation upserts the rule of the process name,
setting the excluded flag and leaving every other field unchanged. -/
theorem lookupRule_exclude (st : GatewayState) (name : String) (r : ProcessRule)
    (h : lookupRule st name = some r) :
    lookupRule (excludeProcessName st name).2 name = some { r with excluded := true } := by
  show assocFind (normName name) (upsertRule (normName name) _ st.rules) = _
  rw [assocFind_upsert]
  rw [lookupRule] at h
  rw [h]
  rfl

/-- C1: with the LAN bypass flag enabled, every destination whose
address lies in one of the five reserved LAN ranges is bypassed, for
every process name, protocol and policy configuration, because the
LAN check precedes any policy lookup. -/
theorem c1_lan_bypass_precedence (st : GatewayState) (processName : String)
    (dest : Nat × Nat) (protocol : Protocol)
    (hb : st.bypassLan = true) (hl : inLanRange dest.1 = true) :
    Socksify.decide st processName dest protocol = .Bypass := by
  unfold Socksify.decide
  rw [hb, hl]
  rfl

/-- C1 witness: a state with a rule assigning app.exe to a proxy, LAN
bypass on, destination 192.168.1.7:443. -/
theorem c1_witness :
    Socksify.decide (setBypassLan c3bState) "app.exe" (mkIp 192 168 1 7, 443) .TCP
      = .Bypass :=
  c1_lan_bypass_precedence (setBypassLan c3bState) "app.exe" (mkIp 192 168 1 7, 443)
    .TCP rfl rfl

/-- C2: a rule whose excluded flag is set forces Bypass for every
destination and protocol, even with an assigned proxy; and for every
existing rule — excluded or not — the exclusion operation sets the
flag while preserving the assigned proxy, after which every decision
for the process bypasses. -/
theorem c2_exclusion_overrides (st : GatewayState) (name : String) (dest : Nat × Nat)
    (protocol : Protocol) (r : ProcessRule)
    (h : lookupRule st name = some r) :
    (r.excluded = true → Socksify.decide st name dest protocol = .Bypass) ∧
    (∃ r₂, lookupRule (excludeProcessName st name).2 name = some r₂ ∧
      r₂.excluded = true ∧ r₂.proxyHandle = r.proxyHandle) ∧
    Socksify.decide (excludeProcessName st name).2 name dest protocol = .Bypass := by
  have hlook := lookupRule_exclude st name r h
  exact ⟨fun hx => decide_bypass_of_excluded st name dest protocol r h hx,
         ⟨{ r with excluded := true }, hlook, rfl, rfl⟩,
         decide_bypass_of_excluded _ name dest protocol _ hlook rfl⟩

/-- C2 witness: app.exe has a not-yet-excluded rule assigned to proxy
1; the exclusion operation sets the flag, keeps the assignment, and
the subsequent decision for the same inputs is Bypass. -/
theorem c2_witness :
    (ProcessRule.excluded
        { proxyHandle := some 1, excluded := false, includedCidrs := [],
          excludedCidrs := [] } = true →
      Socksify.decide c2State "app.exe" (mkIp 93 184 216 34, 443) .TCP = .Bypass) ∧
    (∃ r₂, lookupRule (excludeProcessName c2State "app.exe").2 "app.exe" = some r₂ ∧
      r₂.excluded = true ∧
      r₂.proxyHandle = ProcessRule.proxyHandle
        { proxyHandle := some 1, excluded := false, includedCidrs := [],
          excludedCidrs := [] }) ∧
    Socksify.decide (excludeProcessName c2State "app.exe").2 "app.exe"
      (mkIp 93 184 216 34, 443) .TCP = .Bypass :=
  c2_exclusion_overrides c2State "app.exe" (mkIp 93 184 216 34, 443) .TCP
    { proxyHandle := some 1, excluded := false, includedCidrs := [], excludedCidrs := [] }
    rfl

/-- C3 counterexample: a rule carrying an assigned TCP-only proxy and
the excluded flag; a UDP decision yields Bypass, not Block, because
the exclusion check precedes the protocol-mask check. -/
theorem c3_counterexample :
    (lookupRule c3State "app.exe").map ProcessRule.proxyHandle = some (some 1) ∧
    lookupProxy c3State 1 = some c3Proxy ∧
    supportsProtocol c3Proxy.protocols .UDP = false ∧
    Socksify.decide c3State "app.exe" (mkIp 8 8 8 8, 53) .UDP = .Bypass ∧
    Socksify.decide c3State "app.exe" (mkIp 8 8 8 8, 53) .UDP ≠ .Block :=
  ⟨rfl, rfl, rfl, rfl, by decide⟩

/-- C3 amended: when no earlier bypass condition fires — the LAN check
does not apply, the rule is not excluded, and the destination passes
both CIDR checks — a rule with an assigned registered proxy whose
protocol mask does not include the requested protocol yields Block,
never Proxy and never Bypass. -/
theorem c3_protocol_mask_block (st : GatewayState) (name : String) (dest : Nat × Nat)
    (protocol : Protocol) (r : ProcessRule) (hd : Nat) (px : Proxy)
    (hlan : (st.bypassLan && inLanRange dest.1) = false)
    (hr : lookupRule st name = some r)
    (hx : r.excluded = false)
    (hinc : (!r.includedCidrs.isEmpty &&
      !(r.includedCidrs.any (fun c => cidrMatch c dest.1))) = false)
    (hexc : r.excludedCidrs.any (fun c => cidrMatch c dest.1) = false)
    (hp : r.proxyHandle = some hd)
    (hpx : lookupProxy st hd = some px)
    (hm : supportsProtocol px.protocols protocol = false) :
    Socksify.decide st name dest protocol = .Block := by
  unfold Socksify.decide
  rw [hlan, hr]
  simp only [hx, hinc, hexc, hp, hpx, hm]
  rfl

/-- C3 witness: app.exe assigned the TCP-only proxy with no other
condition in play; a UDP decision is blocked. -/
theorem c3_witness :
    Socksify.decide c3bState "app.exe" (mkIp 8 8 8 8, 53) .UDP = .Block :=
  c3_protocol_mask_block c3bState "app.exe" (mkIp 8 8 8 8, 53) .UDP
    { proxyHandle := some 1, excluded := false, includedCidrs := [], excludedCidrs := [] }
    1 c3Proxy rfl rfl rfl rfl rfl rfl rfl rfl

/-- C4: with a non-empty included-CIDR set, a destination matching
none of its entries is bypassed and in particular never proxied. -/
theorem c4_allow_list_exclusive (st : GatewayState) (name : String) (dest : Nat × Nat)
    (protocol : Protocol) (r : ProcessRule)
    (hr : lookupRule st name = some r)
    (hne : r.includedCidrs.isEmpty = false)
    (hm : r.includedCidrs.any (fun c => cidrMatch c dest.1) = false) :
    Socksify.decide st name dest protocol = .Bypass ∧
    ∀ hd, Socksify.decide st name dest protocol ≠ .Proxy hd := by
  have h1 : Socksify.decide st name dest protocol = .Bypass := by
    unfold Socksify.decide
    split
    · rfl
    · rw [hr]
      rcases hx : r.excluded
      · simp [hx, hne, hm]
      · simp [hx]
  exact ⟨h1, fun hd hc => by rw [h1] at hc; exact Decision.noConfusion hc⟩

/-- C4 example state: app.exe is assigned proxy 1 with the allow list
93.184.216.0/24. -/
def c4State : GatewayState :=
  { lifecycle := .Started, bypassLan := false, nextHandle := 1,
    proxies := [(1, c3Proxy)],
    rules := [(normName "app.exe",
      { proxyHandle := some 1, excluded := false,
        includedCidrs := [⟨mkIp 93 184 216 0, 24⟩], excludedCidrs := [] })] }

/-- C4 witness: a destination outside the allow list is bypassed. -/
theorem c4_witness :
    Socksify.decide c4State "app.exe" (mkIp 8 8 8 8, 53) .TCP = .Bypass ∧
    ∀ hd, Socksify.decide c4State "app.exe" (mkIp 8 8 8 8, 53) .TCP ≠ .Proxy hd :=
  c4_allow_list_exclusive c4State "app.exe" (mkIp 8 8 8 8, 53) .TCP
    { proxyHandle := some 1, excluded := false,
      includedCidrs := [⟨mkIp 93 184 216 0, 24⟩], excludedCidrs := [] }
    rfl rfl rfl

/-- C5: a process name with no registered rule is bypassed for every
destination and protocol. -/
theorem c5_default_bypass (st : GatewayState) (name : String) (dest : Nat × Nat)
    (protocol : Protocol) (h : lookupRule st name = none) :
    Socksify.decide st name dest protocol = .Bypass := by
  unfold Socksify.decide
  split
  · rfl
  · rw [h]

/-- C5 witness: ghost.exe has no rule in the C4 example state. -/
theorem c5_witness :
    Socksify.decide c4State "ghost.exe" (mkIp 93 184 216 34, 443) .TCP = .Bypass :=
  c5_default_bypass c4State "ghost.exe" (mkIp 93 184 216 34, 443) .TCP rfl

/-- C6: appending limit + k entries (k positive) into an empty
pipeline leaves exactly the last limit entries, in append order, so
the k oldest are evicted; and a push into a buffer within the
capacity never exceeds the capacity. Appending is a total function,
so no append fails. -/
theorem c6_ring_buffer_bound (limit k : Nat) (es : List LogEntry)
    (hlim : 1 ≤ limit) (hk : 0 < k) (hlen : es.length = limit + k) :
    (appendAll ⟨limit, [], .All⟩ es).buf = es.drop k ∧
    (appendAll ⟨limit, [], .All⟩ es).buf.length = limit ∧
    ∀ (buf : List LogEntry) (e : LogEntry), buf.length ≤ limit →
      (pushRing limit buf e).length ≤ limit := by
  have h1 : appendAll ⟨limit, [], .All⟩ es = ⟨limit, ringFold limit es, .All⟩ :=
    appendAll_all_level es ⟨limit, [], .All⟩ rfl
  have h2 : (appendAll ⟨limit, [], .All⟩ es).buf = es.drop k := by
    rw [h1]
    show ringFold limit es = es.drop k
    rw [ringFold_eq]
    congr 1
    omega
  refine ⟨h2, ?_, ?_⟩
  · rw [h2]
    simp
    omega
  · intro buf e hb
    by_cases hcc : limit < buf.length + 1
    · simp [pushRing, hcc]
      omega
    · simp [pushRing, hcc]
      omega

/-- C6 example entries: five entries with distinct timestamps. -/
def c6Entries : List LogEntry :=
  [⟨0, .Message, .Info, [], 0⟩, ⟨1, .Message, .Info, [], 0⟩,
   ⟨2, .Connected, .Info, [], 7⟩, ⟨3, .Message, .Info, [], 0⟩,
   ⟨4, .Disconnected, .Info, [], 9⟩]

/-- C6 witness: capacity 3 with five appends keeps the last three
entries in order. -/
theorem c6_witness :
    (appendAll ⟨3, [], .All⟩ c6Entries).buf = c6Entries.drop 2 ∧
    (appendAll ⟨3, [], .All⟩ c6Entries).buf.length = 3 ∧
    ∀ (buf : List LogEntry) (e : LogEntry), buf.length ≤ 3 →
      (pushRing 3 buf e).length ≤ 3 :=
  c6_ring_buffer_bound 3 2 c6Entries (by decide) (by decide) (by decide)

/-- C7: each administrative operation that fails validation returns
its error synchronously and leaves the gateway state unchanged: a
malformed endpoint registers no proxy, an unregistered handle changes
no rule, and a malformed CIDR modifies no CIDR set. -/
theorem c7_admin_atomic (st : GatewayState) (ep cidr name : String) (hd : Nat)
    (protocol : SupportedProtocolsEnum) (b : Bool) (lg pw : String) :
    (parseEndpoint ep = none → addSocks5Proxy st ep protocol b lg pw = (0, st)) ∧
    (lookupProxy st hd = none → associateProcessNameToProxy st name hd = (false, st)) ∧
    (parseCidr cidr = none →
      includeProcessDstCidr st name cidr = (false, st) ∧
      removeProcessDstCidr st name cidr = (false, st)) := by
  refine ⟨?_, ?_, ?_⟩
  · intro hp
    unfold addSocks5Proxy
    rw [hp]
  · intro hp
    unfold associateProcessNameToProxy
    rw [hp]
  · intro hp
    constructor
    · unfold includeProcessDstCidr
      rw [hp]
    · unfold removeProcessDstCidr
      rw [hp]

/-- C7 witness: a malformed endpoint, an absent handle and a malformed
CIDR each fail against the C4 example state without mutating it. -/
theorem c7_witness :
    parseEndpoint "notanendpoint" = none ∧
    lookupProxy c4State 7 = none ∧
    parseCidr "300.300.300.300/8" = none ∧
    addSocks5Proxy c4State "notanendpoint" .TCP false "" "" = (0, c4State) ∧
    associateProcessNameToProxy c4State "app.exe" 7 = (false, c4State) ∧
    includeProcessDstCidr c4State "app.exe" "300.300.300.300/8" = (false, c4State) ∧
    removeProcessDstCidr c4State "app.exe" "300.300.300.300/8" = (false, c4State) := by
  have h := c7_admin_atomic c4State "notanendpoint" "300.300.300.300/8" "app.exe" 7
    .TCP false "" ""
  exact ⟨rfl, rfl, rfl, h.1 rfl, h.2.1 rfl, (h.2.2 rfl).1, (h.2.2 rfl).2⟩

/-- C8: stop succeeds from every gateway state, leaves the lifecycle
Stopped, and a second stop succeeds and changes nothing. -/
theorem c8_stop_idempotent (st : GatewayState) :
    (Socksify.stop st).1 = true ∧
    (Socksify.stop (Socksify.stop st).2).1 = true ∧
    (Socksify.stop st).2.lifecycle = .Stopped ∧
    Socksify.stop (Socksify.stop st).2 = Socksify.stop st := by
  refine ⟨rfl, rfl, rfl, ?_⟩
  unfold Socksify.stop
  simp [stopAll_idem]

/-- C9 example entry: a Debug-severity message. -/
def c9Entry : LogEntry := ⟨0, .Message, .Debug, [], 0⟩

/-- C9 counterexample: with configured level Error, an entry of
severity Debug — which is at or above Error in the order
Error < Warning < Info < Debug — is dropped by append, not retained:
the pipeline is unchanged and its buffer stays empty. -/
theorem c9_counterexample :
    sevRank LogLevel.Error ≤ sevRank LogLevel.Debug ∧
    appendEntry ⟨4, [], LogLevel.Error⟩ c9Entry = ⟨4, [], LogLevel.Error⟩ ∧
    (appendEntry ⟨4, [], LogLevel.Error⟩ c9Entry).buf = [] :=
  ⟨by decide, rfl, rfl⟩

/-- C9 amended: append retains an entry exactly when its severity is
at or below the configured level under the order
Error < Warning < Info < Debug (with All admitting everything);
otherwise the pipeline — and hence anything later drained from it —
is unchanged. -/
theorem c9_threshold (p : LogPipeline) (e : LogEntry) :
    appendEntry p e =
      if sevRank e.level ≤ sevRank p.level then
        { p with buf := pushRing p.limit p.buf e }
      else p := by
  unfold appendEntry
  by_cases hc : sevRank e.level ≤ sevRank p.level
  · rw [if_pos ((retained_iff p.level e.level).mpr hc), if_pos hc]
  · rw [if_neg hc]
    rw [if_neg (fun hr => hc ((retained_iff p.level e.level).mp hr))]

/-- C10 example state: one registered proxy with handle 1. -/
def c10State : GatewayState :=
  { lifecycle := .Created, bypassLan := false, nextHandle := 1,
    proxies := [(1, c3Proxy)], rules := [] }

/-- C10: 0 is the reserved failure sentinel for proxy handles — add
returns 0 exactly when endpoint validation fails, every state whose
handles are nonzero keeps that property across add, association with
handle 0 always fails, and the initial state has no zero handle. -/
theorem c10_zero_handle_sentinel (st : GatewayState) (ep : String)
    (protocol : SupportedProtocolsEnum) (b : Bool) (lg pw name : String)
    (hinv : handlesPositive st = true) :
    ((addSocks5Proxy st ep protocol b lg pw).1 = 0 ↔ parseEndpoint ep = none) ∧
    handlesPositive (addSocks5Proxy st ep protocol b lg pw).2 = true ∧
    (associateProcessNameToProxy st name 0).1 = false ∧
    handlesPositive initState = true := by
  refine ⟨?_, ?_, ?_, rfl⟩
  · unfold addSocks5Proxy
    cases hp : parseEndpoint ep
    · simp
    · simp
  · unfold addSocks5Proxy
    cases hp : parseEndpoint ep
    · simpa using hinv
    · unfold handlesPositive at hinv ⊢
      simp at hinv ⊢
      exact hinv
  · unfold associateProcessNameToProxy lookupProxy
    rw [findP_zero st.proxies hinv]

/-- C10 witness: the example state satisfies the handle invariant; a
valid endpoint yields a nonzero handle, the invariant is preserved,
and handle 0 is rejected. -/
theorem c10_witness :
    ((addSocks5Proxy c10State "1.2.3.4:1080" .BOTH false "" "").1 = 0 ↔
      parseEndpoint "1.2.3.4:1080" = none) ∧
    handlesPositive (addSocks5Proxy c10State "1.2.3.4:1080" .BOTH false "" "").2 = true ∧
    (associateProcessNameToProxy c10State "app.exe" 0).1 = false ∧
    handlesPositive initState = true :=
  c10_zero_handle_sentinel c10State "1.2.3.4:1080" .BOTH false "" "" "app.exe" rfl

end Socksify
